import Mathlib

/-!
Verification development for the HammerAlgo candlestick backtester.

Shallow embedding of the Python sources:
  src/patterns/candlestick.py      (pattern and trend detection)
  src/backtester/portfolio.py      (Position, Portfolio)
  src/backtester/engine.py         (BacktestEngine bar loop, config resolution)
  src/strategies/hammer_strategy.py, shooting_star_strategy.py,
  src/strategies/ny_session_strategy.py (signal generation)

Prices and rates are rationals; Python float arithmetic is modelled as exact
rational arithmetic.  Python `int(x)` (truncation toward zero) is `pyInt`.
Timestamps are integers (only ordering/equality of timestamps matters to the
modelled code).  All definitions are executable.
-/

/-- Trade direction, the `position_type` strings `'LONG'` / `'SHORT'`. -/
inductive Side where
  | LONG
  | SHORT
deriving DecidableEq, Repr

/-- One OHLCV sample; fields named after the DataFrame columns
`Open, High, Low, Close, Volume` plus the index timestamp `date`. -/
structure Bar where
  date : Int
  Open : ℚ
  High : ℚ
  Low : ℚ
  Close : ℚ
  Volume : ℚ
deriving DecidableEq, Repr

instance : Inhabited Bar := ⟨⟨0, 0, 0, 0, 0, 0⟩⟩

/-- Python `int(x)` on a real number: truncation toward zero. -/
def pyInt (q : ℚ) : Int :=
  if q < 0 then ⌈q⌉ else ⌊q⌋

namespace CandlestickPatterns

/-- `CandlestickPatterns.is_hammer` (src/patterns/candlestick.py lines 8-49),
with `body_ratio` and `wick_ratio` passed explicitly (Python defaults 0.25, 2.5). -/
def is_hammer (row : Bar) (body_ratio wick_ratio : ℚ) : Bool :=
  let body := |row.Close - row.Open|
  let total_range := row.High - row.Low
  let lower_wick := min row.Open row.Close - row.Low
  let upper_wick := row.High - max row.Open row.Close
  if total_range = 0 ∨ total_range < 0.0001 then false
  else if body < total_range * 0.05 then false
  else
    decide (body / total_range ≤ body_ratio) &&
    decide (lower_wick ≥ wick_ratio * body) &&
    decide (upper_wick ≤ body * 0.5) &&
    decide (lower_wick / total_range ≥ 0.6)

/-- `CandlestickPatterns.is_shooting_star` (src/patterns/candlestick.py lines 121-162). -/
def is_shooting_star (row : Bar) (body_ratio wick_ratio : ℚ) : Bool :=
  let body := |row.Close - row.Open|
  let total_range := row.High - row.Low
  let upper_wick := row.High - max row.Open row.Close
  let lower_wick := min row.Open row.Close - row.Low
  if total_range = 0 ∨ total_range < 0.0001 then false
  else if body < total_range * 0.05 then false
  else
    decide (body / total_range ≤ body_ratio) &&
    decide (upper_wick ≥ wick_ratio * body) &&
    decide (lower_wick ≤ body * 0.5) &&
    decide (upper_wick / total_range ≥ 0.6)

/-- `CandlestickPatterns.detect_downtrend` (src/patterns/candlestick.py lines 52-94).
The Python loop `for i in range(1, num_candles+1)` with its early `return False`
on `prev_idx < 0` or on a failed comparison is rendered as `List.all`
(the loop body is pure, so early return agrees with conjunction). -/
def detect_downtrend (df : List Bar) (index num_candles : Nat) (strict : Bool) : Bool :=
  if index < num_candles then false
  else if strict then
    (List.range num_candles).all fun j =>
      let i := j + 1
      -- prev_idx = index - i - 1 must be ≥ 0
      decide (i + 1 ≤ index) &&
      match df[index - i]?, df[index - i - 1]? with
      | some cur, some prev => decide (cur.High < prev.High)
      | _, _ => false
  else
    let bearish_count :=
      ((List.range num_candles).filter fun j =>
        match df[index - (j + 1)]? with
        | some bar => decide (bar.Close < bar.Open)
        | none => false).length
    decide ((bearish_count : ℚ) ≥ (num_candles : ℚ) * 0.7)

/-- `CandlestickPatterns.detect_uptrend` (src/patterns/candlestick.py lines 165-207). -/
def detect_uptrend (df : List Bar) (index num_candles : Nat) (strict : Bool) : Bool :=
  if index < num_candles then false
  else if strict then
    (List.range num_candles).all fun j =>
      let i := j + 1
      decide (i + 1 ≤ index) &&
      match df[index - i]?, df[index - i - 1]? with
      | some cur, some prev => decide (prev.Low < cur.Low)
      | _, _ => false
  else
    let bullish_count :=
      ((List.range num_candles).filter fun j =>
        match df[index - (j + 1)]? with
        | some bar => decide (bar.Open < bar.Close)
        | none => false).length
    decide ((bullish_count : ℚ) ≥ (num_candles : ℚ) * 0.7)

end CandlestickPatterns

/-- `Position` (src/backtester/portfolio.py lines 5-34).  Exit fields start as
`None`/`0`; `pattern_date` is the attribute the engine attaches after a
successful open (engine.py line 82). -/
structure Position where
  entry_date : Int
  entry_price : ℚ
  quantity : Int
  stop_loss : ℚ
  target : ℚ
  symbol : String
  position_type : Side
  pattern_date : Option Int := none
  exit_date : Option Int := none
  exit_price : Option ℚ := none
  exit_reason : Option String := none
  pnl : ℚ := 0
  pnl_percent : ℚ := 0
deriving DecidableEq, Repr

/-- `Position.close` (portfolio.py lines 22-34). -/
def Position.close (p : Position) (exit_date : Int) (exit_price : ℚ) (reason : String) :
    Position :=
  { p with
    exit_date := some exit_date
    exit_price := some exit_price
    exit_reason := some reason
    pnl :=
      match p.position_type with
      | .LONG => (exit_price - p.entry_price) * (p.quantity : ℚ)
      | .SHORT => (p.entry_price - exit_price) * (p.quantity : ℚ)
    pnl_percent :=
      match p.position_type with
      | .LONG => (exit_price - p.entry_price) / p.entry_price * 100
      | .SHORT => (p.entry_price - exit_price) / p.entry_price * 100 }

/-- One record of the equity curve (portfolio.py lines 134-138). -/
structure EquityPoint where
  date : Int
  equity : ℚ
  cash : ℚ
deriving DecidableEq, Repr

/-- `Portfolio` (portfolio.py lines 54-64). -/
structure Portfolio where
  initial_capital : ℚ
  cash : ℚ
  commission : ℚ
  slippage : ℚ
  positions : List Position
  current_position : Option Position
  equity_curve : List EquityPoint
deriving DecidableEq, Repr

/-- `Portfolio.__init__` (portfolio.py lines 57-64). -/
def Portfolio.init (initial_capital commission slippage : ℚ) : Portfolio :=
  { initial_capital := initial_capital
    cash := initial_capital
    commission := commission
    slippage := slippage
    positions := []
    current_position := none
    equity_curve := [] }

/-- `Portfolio.open_position` (portfolio.py lines 66-107), returning the updated
portfolio together with the Python boolean result.  Python `int()` is `pyInt`. -/
def Portfolio.open_position (pf : Portfolio) (date : Int)
    (entry_price stop_loss target : ℚ) (symbol : String)
    (position_size : ℚ) (position_type : Side) : Portfolio × Bool :=
  match pf.current_position with
  | some _ => (pf, false)
  | none =>
    let risk_per_share :=
      match position_type with
      | .LONG => entry_price - stop_loss
      | .SHORT => stop_loss - entry_price
    if risk_per_share ≤ 0 then (pf, false)
    else
      let risk_per_trade := pf.cash * position_size
      let quantity_by_risk := pyInt (risk_per_trade / risk_per_share)
      let available_cash := pf.cash * 0.98
      let max_quantity := pyInt (available_cash / (entry_price * (1 + pf.slippage)))
      let quantity := min quantity_by_risk max_quantity
      if quantity ≤ 0 then (pf, false)
      else
        let actual_entry := entry_price * (1 + pf.slippage)
        let cost := (quantity : ℚ) * actual_entry
        let commission_cost := cost * pf.commission
        let total_cost := cost + commission_cost
        if total_cost > pf.cash then (pf, false)
        else
          ({ pf with
              current_position := some
                { entry_date := date
                  entry_price := actual_entry
                  quantity := quantity
                  stop_loss := stop_loss
                  target := target
                  symbol := symbol
                  position_type := position_type }
              cash := pf.cash - total_cost }, true)

/-- `Portfolio.close_position` (portfolio.py lines 109-126). -/
def Portfolio.close_position (pf : Portfolio) (date : Int) (exit_price : ℚ)
    (reason : String) : Portfolio × Bool :=
  match pf.current_position with
  | none => (pf, false)
  | some pos =>
    let actual_exit := exit_price * (1 - pf.slippage)
    let proceeds := (pos.quantity : ℚ) * actual_exit
    let commission_cost := proceeds * pf.commission
    let net_proceeds := proceeds - commission_cost
    ({ pf with
        cash := pf.cash + net_proceeds
        positions := pf.positions ++ [pos.close date actual_exit reason]
        current_position := none }, true)

/-- `Portfolio.update_equity` (portfolio.py lines 128-138).  The Python guard
`if self.current_position and current_price:` treats a price of `0` as falsy. -/
def Portfolio.update_equity (pf : Portfolio) (date : Int) (current_price : ℚ) : Portfolio :=
  let equity :=
    match pf.current_position with
    | some pos => if current_price ≠ 0 then pf.cash + (pos.quantity : ℚ) * current_price else pf.cash
    | none => pf.cash
  { pf with equity_curve := pf.equity_curve ++ [⟨date, equity, pf.cash⟩] }

namespace Config

/-- `Config.INITIAL_CAPITAL` (src/config.py line 9). -/
def INITIAL_CAPITAL : ℚ := 500000

/-- `Config.COMMISSION` (src/config.py line 10). -/
def COMMISSION : ℚ := 0.0003

/-- `Config.SLIPPAGE` (src/config.py line 11). -/
def SLIPPAGE : ℚ := 0.0001

/-- `Config.MAX_POSITION_SIZE` (src/config.py line 14). -/
def MAX_POSITION_SIZE : ℚ := 0.1

/-- `Config.DEFAULT_RISK_REWARD` (src/config.py line 15). -/
def DEFAULT_RISK_REWARD : ℚ := 1.5

end Config

/-- Python truthiness-based `x or default` used by `BacktestEngine.__init__`
(engine.py lines 12-14): `None` and `0` both fall through to the default. -/
def pyOrQ (x : Option ℚ) (d : ℚ) : ℚ :=
  match x with
  | some v => if v = 0 then d else v
  | none => d

/-- The three numeric settings resolved by `BacktestEngine.__init__`
(engine.py lines 10-16). -/
structure EngineConfig where
  initial_capital : ℚ
  commission : ℚ
  slippage : ℚ
deriving DecidableEq, Repr

/-- `BacktestEngine.__init__` (engine.py lines 10-16): each setting is
`argument or Config.DEFAULT` with Python `or`. -/
def BacktestEngine.resolveConfig (initial_capital commission slippage : Option ℚ) :
    EngineConfig :=
  { initial_capital := pyOrQ initial_capital Config.INITIAL_CAPITAL
    commission := pyOrQ commission Config.COMMISSION
    slippage := pyOrQ slippage Config.SLIPPAGE }

/-- One row of the annotated DataFrame as the engine reads it
(engine.py lines 42-86): the OHLCV bar plus the columns written by
`generate_signals`. -/
structure SigRow where
  bar : Bar
  signal : Int
  entry_price : Option ℚ
  stop_loss : Option ℚ
  target : Option ℚ
  pattern_date : Option Int
deriving DecidableEq, Repr

/-- The exit check of the `BacktestEngine.run` bar loop (engine.py lines
46-66): while a position is open and the bar is not the entry bar, stop-loss
is tested before target, on the side-appropriate extreme of the bar, and the
position is closed at the level that was hit. -/
def engineExitPhase (pf : Portfolio) (row : SigRow) : Portfolio :=
  let date := row.bar.date
  match pf.current_position with
  | some pos =>
    if pos.entry_date ≠ date then
      match pos.position_type with
      | .LONG =>
        if row.bar.Low ≤ pos.stop_loss then
          (pf.close_position date pos.stop_loss "Stop Loss").1
        else if row.bar.High ≥ pos.target then
          (pf.close_position date pos.target "Target").1
        else pf
      | .SHORT =>
        if row.bar.High ≥ pos.stop_loss then
          (pf.close_position date pos.stop_loss "Stop Loss").1
        else if row.bar.Low ≤ pos.target then
          (pf.close_position date pos.target "Target").1
        else pf
    else pf
  | none => pf

/-- The entry attempt of the `BacktestEngine.run` bar loop (engine.py lines
68-82): on a non-zero signal with no open position, try to open, and copy the
`pattern_date` cell onto the new position when it is set.  `Option.getD 0`
stands for reading a NaN cell, which the code only does when `signal ≠ 0` and
hence the cell was written. -/
def engineEntryPhase (symbol : String) (pf : Portfolio) (row : SigRow) : Portfolio :=
  if row.signal ≠ 0 ∧ pf.current_position = none then
    let position_type := if row.signal = 1 then Side.LONG else Side.SHORT
    let res := pf.open_position row.bar.date (row.entry_price.getD 0)
      (row.stop_loss.getD 0) (row.target.getD 0) symbol Config.MAX_POSITION_SIZE
      position_type
    if res.2 then
      match res.1.current_position, row.pattern_date with
      | some pos, some pd =>
        { res.1 with current_position := some { pos with pattern_date := some pd } }
      | _, _ => res.1
    else res.1
  else pf

/-- One iteration of the `BacktestEngine.run` bar loop (engine.py lines
42-86): the exit check first, then the entry attempt, then the equity update
at the bar's close. -/
def engineStep (symbol : String) (pf : Portfolio) (row : SigRow) : Portfolio :=
  ((engineEntryPhase symbol (engineExitPhase pf row) row).update_equity
    row.bar.date row.bar.Close)

/-- Modify the element at index `i` of a list in place (a DataFrame cell write
`df.loc[df.index[i], col] = v`); out-of-range writes never occur in the code. -/
def listModify {α : Type} (l : List α) (i : Nat) (f : α → α) : List α :=
  match l[i]? with
  | some x => l.set i (f x)
  | none => l

/-- One row of the DataFrame returned by `HammerStrategy.generate_signals`
(hammer_strategy.py lines 27-34): the bar plus the columns the strategy adds.
`none` stands for a NaN / NaT cell. -/
structure HRow where
  bar : Bar
  signal : Int
  entry_price : Option ℚ
  stop_loss : Option ℚ
  target : Option ℚ
  pattern_date : Option Int
  is_hammer : Bool
  has_downtrend : Bool
deriving DecidableEq, Repr

namespace HammerStrategy

/-- Column initialization (hammer_strategy.py lines 27-34). -/
def initRow (b : Bar) : HRow :=
  ⟨b, 0, none, none, none, none, false, false⟩

/-- Strict-then-relaxed downtrend test (hammer_strategy.py lines 44-53): the
relaxed mode is only consulted when strict mode fails, which for pure
functions is the boolean disjunction. -/
def hasTrend (df : List Bar) (i n : Nat) : Bool :=
  CandlestickPatterns.detect_downtrend df i n true ||
  CandlestickPatterns.detect_downtrend df i n false

/-- One iteration of the scan loop of `HammerStrategy.generate_signals`
(hammer_strategy.py lines 37-88) at index `i`.  The OHLC columns are never
written, so pattern/trend detection reads the original `df`. -/
def stepSignals (df : List Bar) (n : Nat) (rr : ℚ) (rows : List HRow) (i : Nat) :
    List HRow :=
  let bar_i := df.getD i default
  let ih := CandlestickPatterns.is_hammer bar_i 0.25 2.5
  let rows1 := listModify rows i fun r => { r with is_hammer := ih }
  if ih then
    let hd := hasTrend df i n
    let rows2 := listModify rows1 i fun r => { r with has_downtrend := hd }
    if hd then
      let hammer_high := bar_i.High
      let hammer_low := bar_i.Low
      let next_candle := df.getD (i + 1) default
      if next_candle.High > hammer_high ∧ next_candle.Open ≥ hammer_high then
        let entry_price := next_candle.Open
        let stop_loss := hammer_low
        let risk := entry_price - stop_loss
        if risk > 0 then
          listModify rows2 (i + 1) fun r =>
            { r with
              signal := 1
              entry_price := some entry_price
              stop_loss := some stop_loss
              target := some (entry_price + risk * rr)
              pattern_date := some bar_i.date }
        else rows2
      else rows2
    else rows1
  else rows1

/-- `HammerStrategy.generate_signals` (hammer_strategy.py lines 23-90) with
trend window `n` (`downtrend_candles`, default 6) and risk:reward `rr`
(default 1.5): scan `i` over Python `range(n, len(df) - 1)`. -/
def generate_signals (n : Nat) (rr : ℚ) (df : List Bar) : List HRow :=
  (List.range' n (df.length - 1 - n)).foldl (stepSignals df n rr) (df.map initRow)

end HammerStrategy

/-- One row of the DataFrame returned by `ShootingStarStrategy.generate_signals`
(shooting_star_strategy.py lines 29-36). -/
structure SRow where
  bar : Bar
  signal : Int
  entry_price : Option ℚ
  stop_loss : Option ℚ
  target : Option ℚ
  pattern_date : Option Int
  is_shooting_star : Bool
  has_uptrend : Bool
deriving DecidableEq, Repr

namespace ShootingStarStrategy

/-- Column initialization (shooting_star_strategy.py lines 29-36). -/
def initRow (b : Bar) : SRow :=
  ⟨b, 0, none, none, none, none, false, false⟩

/-- Strict-then-relaxed uptrend test (shooting_star_strategy.py lines 46-55). -/
def hasTrend (df : List Bar) (i n : Nat) : Bool :=
  CandlestickPatterns.detect_uptrend df i n true ||
  CandlestickPatterns.detect_uptrend df i n false

/-- One iteration of the scan loop of `ShootingStarStrategy.generate_signals`
(shooting_star_strategy.py lines 39-90) at index `i`. -/
def stepSignals (df : List Bar) (n : Nat) (rr : ℚ) (rows : List SRow) (i : Nat) :
    List SRow :=
  let bar_i := df.getD i default
  let iss := CandlestickPatterns.is_shooting_star bar_i 0.25 2.5
  let rows1 := listModify rows i fun r => { r with is_shooting_star := iss }
  if iss then
    let hu := hasTrend df i n
    let rows2 := listModify rows1 i fun r => { r with has_uptrend := hu }
    if hu then
      let star_high := bar_i.High
      let star_low := bar_i.Low
      let next_candle := df.getD (i + 1) default
      if next_candle.Low < star_low ∧ next_candle.Open ≤ star_low then
        let entry_price := next_candle.Open
        let stop_loss := star_high
        let risk := stop_loss - entry_price
        if risk > 0 then
          listModify rows2 (i + 1) fun r =>
            { r with
              signal := -1
              entry_price := some entry_price
              stop_loss := some stop_loss
              target := some (entry_price - risk * rr)
              pattern_date := some bar_i.date }
        else rows2
      else rows2
    else rows1
  else rows1

/-- `ShootingStarStrategy.generate_signals` (shooting_star_strategy.py lines
25-92) with trend window `n` (`uptrend_candles`, default 6) and risk:reward
`rr` (default 1.5). -/
def generate_signals (n : Nat) (rr : ℚ) (df : List Bar) : List SRow :=
  (List.range' n (df.length - 1 - n)).foldl (stepSignals df n rr) (df.map initRow)

end ShootingStarStrategy

/-- The breakout state machine of `NYSessionStrategy.generate_signals`
(ny_session_strategy.py lines 88-92): the flags `in_breakout_up` /
`in_breakout_down` (mutually exclusive by construction) together with the
tracked `breakout_high` / `breakout_low` extremes, which are set exactly when
one of the flags is. -/
inductive NYState where
  | Flat
  | BreakoutUp (breakout_high breakout_low : ℚ)
  | BreakoutDown (breakout_low breakout_high : ℚ)
deriving DecidableEq, Repr

/-- The signal columns written at one bar by the NY-session strategy. -/
structure NYAnnot where
  signal : Int
  entry_price : Option ℚ
  stop_loss : Option ℚ
  target : Option ℚ
  pattern_date : Option Int
deriving DecidableEq, Repr

namespace NYSessionStrategy

/-- No signal at this bar: the columns keep their initial NaN/0 values. -/
def noSignal : NYAnnot := ⟨0, none, none, none, none⟩

/-- The re-entry test of ny_session_strategy.py lines 123-128 (identical at
lines 157-162): every checked field back inside the session range. -/
def backInsideRange (four_hour_high four_hour_low : ℚ) (c : Bar) : Bool :=
  decide (c.High ≤ four_hour_high) && decide (c.Low ≥ four_hour_low) &&
  decide (c.Open ≤ four_hour_high) && decide (c.Open ≥ four_hour_low) &&
  decide (c.Close ≤ four_hour_high) && decide (c.Close ≥ four_hour_low)

/-- One iteration of the post-session bar loop of
`NYSessionStrategy.generate_signals` (ny_session_strategy.py lines 95-181):
the `Flat` transitions (lines 104-113, the `elif` makes them mutually
exclusive and a bar already in a breakout state takes neither), then the
breakout-up block (lines 116-147), then the breakout-down block (lines
150-181).  Only one of the two blocks can run per bar since the flags are
never both set. -/
def nyStep (four_hour_high four_hour_low rr : ℚ) (session_start : Int)
    (st : NYState) (candle : Bar) : NYState × NYAnnot :=
  let st1 :=
    match st with
    | .Flat =>
      if candle.Close > four_hour_high then NYState.BreakoutUp candle.High candle.Low
      else if candle.Close < four_hour_low then NYState.BreakoutDown candle.Low candle.High
      else NYState.Flat
    | s => s
  match st1 with
  | .Flat => (.Flat, noSignal)
  | .BreakoutUp bh bl =>
    let bh := max bh candle.High
    let bl := min bl candle.Low
    if backInsideRange four_hour_high four_hour_low candle then
      let entry_price := candle.High
      let stop_loss := bh
      let risk := stop_loss - entry_price
      if risk > 0 then
        (.Flat, ⟨-1, some entry_price, some stop_loss,
          some (entry_price - risk * rr), some session_start⟩)
      else (.Flat, noSignal)
    else (.BreakoutUp bh bl, noSignal)
  | .BreakoutDown bl bh =>
    let bl := min bl candle.Low
    let bh := max bh candle.High
    if backInsideRange four_hour_high four_hour_low candle then
      let entry_price := candle.Low
      let stop_loss := bl
      let risk := entry_price - stop_loss
      if risk > 0 then
        (.Flat, ⟨1, some entry_price, some stop_loss,
          some (entry_price + risk * rr), some session_start⟩)
      else (.Flat, noSignal)
    else (.BreakoutDown bl bh, noSignal)

end NYSessionStrategy

/-- One row of the DataFrame returned by `NYSessionStrategy.generate_signals`
(ny_session_strategy.py lines 32-39). -/
structure NYRow where
  bar : Bar
  signal : Int
  entry_price : Option ℚ
  stop_loss : Option ℚ
  target : Option ℚ
  pattern_date : Option Int
  four_hour_high : Option ℚ
  four_hour_low : Option ℚ
deriving DecidableEq, Repr

namespace NYSessionStrategy

/-- Assemble one post-session row: the range columns were written for every
post-session index (ny_session_strategy.py lines 80-86) and the signal
columns by the state machine. -/
def mkRow (four_hour_high four_hour_low : ℚ) (c : Bar) (a : NYAnnot) : NYRow :=
  { bar := c
    signal := a.signal
    entry_price := a.entry_price
    stop_loss := a.stop_loss
    target := a.target
    pattern_date := a.pattern_date
    four_hour_high := some four_hour_high
    four_hour_low := some four_hour_low }

/-- Processing of one day's post-session bars (ny_session_strategy.py lines
79-181), given the already-computed session range: write the range columns on
every post-session row and run the breakout state machine, threading the
state through the bars in order. -/
def processDay (four_hour_high four_hour_low rr : ℚ) (session_start : Int) :
    NYState → List Bar → List NYRow
  | _, [] => []
  | st, c :: rest =>
    let r := nyStep four_hour_high four_hour_low rr session_start st c
    mkRow four_hour_high four_hour_low c r.2 ::
      processDay four_hour_high four_hour_low rr session_start r.1 rest

/-- `four_hour_candles['High'].max()` (ny_session_strategy.py line 70),
meaningful only for a nonempty session. -/
def sessionHigh : List Bar → ℚ
  | [] => 0
  | b :: rest => rest.foldl (fun m c => max m c.High) b.High

/-- `four_hour_candles['Low'].min()` (ny_session_strategy.py line 71). -/
def sessionLow : List Bar → ℚ
  | [] => 0
  | b :: rest => rest.foldl (fun m c => min m c.Low) b.Low

/-- One day of `NYSessionStrategy.generate_signals` (ny_session_strategy.py
lines 50-181): given the bars inside the 4-hour session window and the bars
after it, compute the range and annotate the post-session bars.  An empty
session window is skipped (`continue`, line 67): all columns stay at their
initial values. -/
def generate_signals (rr : ℚ) (session_start : Int) (session post : List Bar) :
    List NYRow :=
  if session.isEmpty then
    post.map fun b => ⟨b, 0, none, none, none, none, none, none⟩
  else
    processDay (sessionHigh session) (sessionLow session) rr session_start .Flat post

end NYSessionStrategy

/-- `df.iloc[k]` for a position `k` known to be in range. -/
def barAt (df : List Bar) (k : Nat) : Bar := df.getD k default

/-- The side-consistent risk per share computed by `open_position`
(portfolio.py lines 72-75). -/
def riskPerShare (entry_price stop_loss : ℚ) : Side → ℚ
  | .LONG => entry_price - stop_loss
  | .SHORT => stop_loss - entry_price

/-- The position size `open_position` computes (portfolio.py lines 80-89):
the smaller of the risk-based and the affordability-based quantity. -/
def sizedQuantity (pf : Portfolio) (entry_price stop_loss : ℚ)
    (position_size : ℚ) (side : Side) : Int :=
  min (pyInt (pf.cash * position_size / riskPerShare entry_price stop_loss side))
      (pyInt (pf.cash * 0.98 / (entry_price * (1 + pf.slippage))))

/-- The all-in entry cost of the sized position, slippage and commission
included (portfolio.py lines 94-98, with the two additions grouped as one
product). -/
def entryTotalCost (pf : Portfolio) (entry_price stop_loss : ℚ)
    (position_size : ℚ) (side : Side) : ℚ :=
  (sizedQuantity pf entry_price stop_loss position_size side : ℚ) *
    (entry_price * (1 + pf.slippage)) * (1 + pf.commission)

/-- A call against the portfolio API, for stating the open/close alternation
invariant over arbitrary call sequences. -/
inductive PortfolioCmd where
  | openCmd (date : Int) (entry_price stop_loss target : ℚ) (symbol : String)
      (position_size : ℚ) (position_type : Side)
  | closeCmd (date : Int) (exit_price : ℚ) (reason : String)

/-- Run a sequence of portfolio calls, counting the successful opens and the
successful closes: result `(final portfolio, opens, closes)`. -/
def runCmds (pf : Portfolio) : List PortfolioCmd → Portfolio × Nat × Nat
  | [] => (pf, 0, 0)
  | .openCmd d e s t sym sz side :: rest =>
    let r := pf.open_position d e s t sym sz side
    let rec' := runCmds r.1 rest
    (rec'.1, (if r.2 then 1 else 0) + rec'.2.1, rec'.2.2)
  | .closeCmd d p reason :: rest =>
    let r := pf.close_position d p reason
    let rec' := runCmds r.1 rest
    (rec'.1, rec'.2.1, (if r.2 then 1 else 0) + rec'.2.2)

namespace HammerStrategy

/-- The signal columns of a row, the part of the annotation governed by the
breakout rule (flags excluded). -/
def sigOf (r : HRow) : Int × Option ℚ × Option ℚ × Option ℚ × Option Int :=
  (r.signal, r.entry_price, r.stop_loss, r.target, r.pattern_date)

/-- The full condition under which the scan at pattern index `i` writes a
signal at `i + 1`: hammer at `i`, confirmed downtrend before `i` (strict,
else relaxed), breakout on bar `i + 1`, strictly positive risk. -/
def breakoutTrigger (df : List Bar) (n i : Nat) : Bool :=
  CandlestickPatterns.is_hammer (barAt df i) 0.25 2.5 &&
  hasTrend df i n &&
  decide ((barAt df (i + 1)).High > (barAt df i).High) &&
  decide ((barAt df (i + 1)).Open ≥ (barAt df i).High) &&
  decide (0 < (barAt df (i + 1)).Open - (barAt df i).Low)

/-- The signal columns written at bar `i + 1` for the pattern at bar `i`:
LONG at the breakout bar's open, stop at the hammer's low, target at
entry + risk × R, pattern timestamp of bar `i`. -/
def emittedSignal (df : List Bar) (rr : ℚ) (i : Nat) :
    Int × Option ℚ × Option ℚ × Option ℚ × Option Int :=
  (1, some (barAt df (i + 1)).Open, some (barAt df i).Low,
    some ((barAt df (i + 1)).Open + ((barAt df (i + 1)).Open - (barAt df i).Low) * rr),
    some (barAt df i).date)

/-- The signal columns of an untouched row. -/
def noSigma : Int × Option ℚ × Option ℚ × Option ℚ × Option Int :=
  (0, none, none, none, none)

end HammerStrategy

/-- All four OHLC values of the bar lie in the closed interval `[lo, hi]`. -/
def allWithin (lo hi : ℚ) (c : Bar) : Prop :=
  (lo ≤ c.Open ∧ c.Open ≤ hi) ∧ (lo ≤ c.High ∧ c.High ≤ hi) ∧
  (lo ≤ c.Low ∧ c.Low ≤ hi) ∧ (lo ≤ c.Close ∧ c.Close ≤ hi)

instance (lo hi : ℚ) (c : Bar) : Decidable (allWithin lo hi c) := by
  unfold allWithin; infer_instance

/-- The OHLC sanity invariant the data model assumes of every bar:
`high ≥ max(open, close)` and `low ≤ min(open, close)`. -/
def barSane (c : Bar) : Prop :=
  c.Low ≤ c.Open ∧ c.Low ≤ c.Close ∧ c.Open ≤ c.High ∧ c.Close ≤ c.High

instance (c : Bar) : Decidable (barSane c) := by
  unfold barSane; infer_instance

/-- Count of bearish bars (`close < open`) among the `n` bars preceding
`index`, as the relaxed downtrend mode counts them. -/
def bearishCount (df : List Bar) (index n : Nat) : Nat :=
  ((List.range n).filter fun j =>
    decide ((barAt df (index - j - 1)).Close < (barAt df (index - j - 1)).Open)).length

/-- Count of bullish bars (`close > open`) among the `n` bars preceding
`index`, as the relaxed uptrend mode counts them. -/
def bullishCount (df : List Bar) (index n : Nat) : Nat :=
  ((List.range n).filter fun j =>
    decide ((barAt df (index - j - 1)).Open < (barAt df (index - j - 1)).Close)).length

/-- `1` when a position is open, `0` when flat. -/
def openFlag (pf : Portfolio) : Nat := if pf.current_position.isSome then 1 else 0

/-- The 10-bar end-to-end scenario of spec section 8: seven bars with
strictly declining highs (the first a reference bar), a qualifying hammer
(high 100, low 90, body 20% of range, no upper wick), a breakout bar
(open 101, high 105, close 103) and one trailing bar. -/
def hammerScenario : List Bar :=
  [⟨0, 130, 130, 125, 125, 0⟩, ⟨1, 126, 126, 121, 121, 0⟩,
   ⟨2, 122, 122, 117, 117, 0⟩, ⟨3, 118, 118, 113, 113, 0⟩,
   ⟨4, 114, 114, 109, 109, 0⟩, ⟨5, 110, 110, 105, 105, 0⟩,
   ⟨6, 106, 106, 101, 101, 0⟩, ⟨7, 98, 100, 90, 100, 0⟩,
   ⟨8, 101, 105, 100, 103, 0⟩, ⟨9, 103, 104, 102, 103, 0⟩]

section ListHelpers

variable {α β : Type}

theorem listModify_length (l : List α) (i : Nat) (f : α → α) :
    (listModify l i f).length = l.length := by
  unfold listModify
  cases h : l[i]? <;> simp

theorem set_getElem?_self : ∀ (l : List α) (i : Nat) (x : α),
    l[i]? = some x → l.set i x = l
  | [], _, _, h => by simp at h
  | a :: t, 0, x, h => by
    simp at h
    simp [h]
  | a :: t, i + 1, x, h => by
    simp at h
    simpa using set_getElem?_self t i x h

theorem listModify_map (g : α → β) (l : List α) (i : Nat) (f : α → α)
    (hg : ∀ x, g (f x) = g x) : (listModify l i f).map g = l.map g := by
  unfold listModify
  cases h : l[i]? with
  | none => rfl
  | some x =>
    rw [List.map_set, hg]
    apply set_getElem?_self
    rw [List.getElem?_map, h]
    rfl

theorem listModify_getD_ne (l : List α) {i j : Nat} (f : α → α) (d : α) (h : i ≠ j) :
    (listModify l i f).getD j d = l.getD j d := by
  unfold listModify
  cases hi : l[i]? with
  | none => rfl
  | some x =>
    simp only [List.getD_eq_getElem?_getD]
    rw [List.getElem?_set_ne h]

theorem listModify_getD_self (l : List α) {j : Nat} (f : α → α) (d : α)
    (h : j < l.length) : (listModify l j f).getD j d = f (l.getD j d) := by
  unfold listModify
  cases hj : l[j]? with
  | none =>
    rw [List.getElem?_eq_none_iff] at hj
    omega
  | some x =>
    simp only [List.getD_eq_getElem?_getD]
    rw [List.getElem?_set_self h, hj]
    rfl

theorem getD_map_of_lt (g : α → β) (l : List α) {j : Nat} (d : β) (da : α)
    (h : j < l.length) : (l.map g).getD j d = g (l.getD j da) := by
  simp only [List.getD_eq_getElem?_getD, List.getElem?_map]
  rw [List.getElem?_eq_getElem h]
  rfl

theorem getD_eq_getElem (l : List α) {j : Nat} (d : α) (h : j < l.length) :
    l.getD j d = l[j] := by
  simp [List.getD_eq_getElem?_getD, List.getElem?_eq_getElem h]

end ListHelpers

theorem pyInt_nonneg_eq_floor {q : ℚ} (h : ¬q < 0) : pyInt q = ⌊q⌋ := by
  simp [pyInt, h]

theorem pyInt_pos_arg_nonneg {q : ℚ} (h : 0 < pyInt q) : ¬q < 0 := by
  intro hq
  have hc : pyInt q = ⌈q⌉ := by simp [pyInt, hq]
  have hce : ⌈q⌉ ≤ 0 := Int.ceil_le.mpr (by exact_mod_cast hq.le)
  omega

/-- A hammer and a shooting star exclude each other: both demand a dominant
wick of at least 60% of the high-low range on opposite sides, plus a body of
at least 5% of the range, while body + lower wick + upper wick is exactly the
range. -/
theorem hammer_star_exclusive (row : Bar) :
    ¬(CandlestickPatterns.is_hammer row 0.25 2.5 = true ∧
      CandlestickPatterns.is_shooting_star row 0.25 2.5 = true) := by
  rintro ⟨hh, hs⟩
  unfold CandlestickPatterns.is_hammer at hh
  unfold CandlestickPatterns.is_shooting_star at hs
  by_cases hr : row.High - row.Low = 0 ∨ row.High - row.Low < 0.0001
  · simp [hr] at hh
  by_cases hb : |row.Close - row.Open| < (row.High - row.Low) * 0.05
  · simp [hr, hb] at hh
  simp only [hr, hb, if_false, if_true, Bool.and_eq_true, decide_eq_true_eq] at hh hs
  push_neg at hr hb
  obtain ⟨⟨⟨hh1, hh2⟩, hh3⟩, hh4⟩ := hh
  obtain ⟨⟨⟨hs1, hs2⟩, hs3⟩, hs4⟩ := hs
  have hrpos : (0 : ℚ) < row.High - row.Low := lt_of_lt_of_le (by norm_num) hr.2
  have hlw : (0.6 : ℚ) * (row.High - row.Low) ≤ min row.Open row.Close - row.Low := by
    rw [ge_iff_le, le_div_iff₀ hrpos] at hh4
    linarith
  have huw : (0.6 : ℚ) * (row.High - row.Low) ≤ row.High - max row.Open row.Close := by
    rw [ge_iff_le, le_div_iff₀ hrpos] at hs4
    linarith
  have hsum : min row.Open row.Close + max row.Open row.Close = row.Open + row.Close :=
    min_add_max _ _
  have habs : |row.Close - row.Open| = max row.Open row.Close - min row.Open row.Close := by
    rw [abs_sub_comm, ← max_sub_min_eq_abs, max_comm, min_comm]
  linarith [hb, hlw, huw, hsum, habs, abs_nonneg (row.Close - row.Open)]

/-- C9: for every bar (any rational OHLC values) and the default parameters,
`is_hammer` and `is_shooting_star` are never both true: a hammer needs a
lower wick of at least 60% of the high-low range, a shooting star an upper
wick of at least 60% of it, and both need a body of at least 5% of it, which
is impossible since body + lower wick + upper wick equals the range. -/
theorem C9_hammer_shooting_star_mutual_exclusion (row : Bar) :
    (CandlestickPatterns.is_hammer row 0.25 2.5 &&
      CandlestickPatterns.is_shooting_star row 0.25 2.5) = false := by
  cases hh : CandlestickPatterns.is_hammer row 0.25 2.5 with
  | false => simp
  | true =>
    cases hs : CandlestickPatterns.is_shooting_star row 0.25 2.5 with
    | false => simp
    | true => exact absurd ⟨hh, hs⟩ (hammer_star_exclusive row)

/-- C8 counterexample: the engine resolves a caller-supplied commission rate
of `0` (a Python-falsy value) to the default `0.0003`, so a supplied value of
`0` is not the value used for the run. -/
theorem C8_counterexample :
    (BacktestEngine.resolveConfig (some 500000) (some 0) (some 0.0001)).commission
      = 0.0003 ∧ (0.0003 : ℚ) ≠ 0 := by
  constructor
  · with_unfolding_all rfl
  · norm_num

/-- C8 (amended): a supplied nonzero value of initial capital, commission or
slippage is the value used for the run; the documented defaults are used when
no value is supplied or when the supplied value is `0` (Python `or` treats
`0` as absent). -/
theorem C8_config_override_amended (initial_capital commission slippage : Option ℚ) :
    (∀ v : ℚ, v ≠ 0 →
      (initial_capital = some v →
        (BacktestEngine.resolveConfig initial_capital commission slippage).initial_capital = v) ∧
      (commission = some v →
        (BacktestEngine.resolveConfig initial_capital commission slippage).commission = v) ∧
      (slippage = some v →
        (BacktestEngine.resolveConfig initial_capital commission slippage).slippage = v)) ∧
    ((initial_capital = none ∨ initial_capital = some 0) →
      (BacktestEngine.resolveConfig initial_capital commission slippage).initial_capital
        = Config.INITIAL_CAPITAL) ∧
    ((commission = none ∨ commission = some 0) →
      (BacktestEngine.resolveConfig initial_capital commission slippage).commission
        = Config.COMMISSION) ∧
    ((slippage = none ∨ slippage = some 0) →
      (BacktestEngine.resolveConfig initial_capital commission slippage).slippage
        = Config.SLIPPAGE) := by
  refine ⟨fun v hv => ⟨?_, ?_, ?_⟩, ?_, ?_, ?_⟩
  · rintro rfl
    simp [BacktestEngine.resolveConfig, pyOrQ, hv]
  · rintro rfl
    simp [BacktestEngine.resolveConfig, pyOrQ, hv]
  · rintro rfl
    simp [BacktestEngine.resolveConfig, pyOrQ, hv]
  · rintro (rfl | rfl) <;> simp [BacktestEngine.resolveConfig, pyOrQ]
  · rintro (rfl | rfl) <;> simp [BacktestEngine.resolveConfig, pyOrQ]
  · rintro (rfl | rfl) <;> simp [BacktestEngine.resolveConfig, pyOrQ]

/-- Concrete instance of the amended C8 statement: a nonzero supplied initial
capital is used, a supplied commission of `0` and an unsupplied slippage both
resolve to the defaults. -/
theorem C8_config_override_amended_witness :
    (BacktestEngine.resolveConfig (some 600000) (some 0) none).initial_capital = 600000 ∧
    (BacktestEngine.resolveConfig (some 600000) (some 0) none).commission
      = Config.COMMISSION ∧
    (BacktestEngine.resolveConfig (some 600000) (some 0) none).slippage
      = Config.SLIPPAGE :=
  ⟨((C8_config_override_amended (some 600000) (some 0) none).1 600000
      (by norm_num)).1 rfl,
    (C8_config_override_amended (some 600000) (some 0) none).2.2.1 (Or.inr rfl),
    (C8_config_override_amended (some 600000) (some 0) none).2.2.2 (Or.inl rfl)⟩

/-- Normal form of `open_position` when no position is open: the three
failure guards in order, then the successful open. -/
theorem open_position_eq (pf : Portfolio) (date : Int) (e s t : ℚ) (sym : String)
    (sz : ℚ) (side : Side) (hcp : pf.current_position = none) :
    pf.open_position date e s t sym sz side =
      if riskPerShare e s side ≤ 0 then (pf, false)
      else if sizedQuantity pf e s sz side ≤ 0 then (pf, false)
      else if pf.cash < entryTotalCost pf e s sz side then (pf, false)
      else
        ({ pf with
            current_position := some
              { entry_date := date
                entry_price := e * (1 + pf.slippage)
                quantity := sizedQuantity pf e s sz side
                stop_loss := s
                target := t
                symbol := sym
                position_type := side }
            cash := pf.cash - entryTotalCost pf e s sz side }, true) := by
  have hrps : (match side with
      | Side.LONG => e - s
      | Side.SHORT => s - e) = riskPerShare e s side := by
    cases side <;> rfl
  have hcost : ∀ q : ℚ,
      q * (e * (1 + pf.slippage)) + q * (e * (1 + pf.slippage)) * pf.commission
        = q * (e * (1 + pf.slippage)) * (1 + pf.commission) := fun q => by ring
  unfold Portfolio.open_position
  rw [hcp]
  simp only [hrps, gt_iff_lt, hcost]
  rfl

/-- C2: `open_position` returns false exactly when a position is already
open, or the side-consistent risk per share is ≤ 0, or the computed quantity
is ≤ 0, or the total cost with slippage and commission exceeds cash; whenever
it returns false the portfolio (cash, current position, trade history, equity
curve) is completely unchanged, and in every other case it returns true. -/
theorem C2_open_position_noop_iff (pf : Portfolio) (date : Int)
    (entry_price stop_loss target : ℚ) (symbol : String) (position_size : ℚ)
    (position_type : Side) :
    (((pf.open_position date entry_price stop_loss target symbol position_size
        position_type).2 = false) ↔
      (pf.current_position ≠ none ∨
       riskPerShare entry_price stop_loss position_type ≤ 0 ∨
       sizedQuantity pf entry_price stop_loss position_size position_type ≤ 0 ∨
       pf.cash < entryTotalCost pf entry_price stop_loss position_size position_type)) ∧
    ((pf.open_position date entry_price stop_loss target symbol position_size
        position_type).2 = false →
      (pf.open_position date entry_price stop_loss target symbol position_size
        position_type).1 = pf) := by
  cases hcp : pf.current_position with
  | some p =>
    unfold Portfolio.open_position
    rw [hcp]
    simp
  | none =>
    rw [open_position_eq pf date entry_price stop_loss target symbol position_size
      position_type hcp]
    simp only [hcp, ne_eq, not_true_eq_false, false_or]
    split_ifs with h1 h2 h3 <;> simp_all

/-- Concrete instance of C2: opening a LONG with the stop above the entry
(risk per share ≤ 0) fails and leaves the fresh portfolio untouched. -/
theorem C2_open_position_noop_iff_witness :
    ((Portfolio.init 1000 0 0).open_position 0 10 20 30 "X" 0.1 Side.LONG).2 = false ∧
    ((Portfolio.init 1000 0 0).open_position 0 10 20 30 "X" 0.1 Side.LONG).1
      = Portfolio.init 1000 0 0 := by
  have h := C2_open_position_noop_iff (Portfolio.init 1000 0 0) 0 10 20 30 "X" 0.1
    Side.LONG
  have hfail : ((Portfolio.init 1000 0 0).open_position 0 10 20 30 "X" 0.1
      Side.LONG).2 = false :=
    h.1.mpr (Or.inr (Or.inl (by norm_num [riskPerShare])))
  exact ⟨hfail, h.2 hfail⟩

/-- C4: every successful `open_position` stores a position whose quantity is
the minimum of the risk-based and affordability-based floors, whose entry
price is the slippage-adjusted entry, and debits cash by exactly
quantity × entry × (1 + slippage) × (1 + commission). -/
theorem C4_open_position_sizing (pf : Portfolio) (date : Int)
    (entry_price stop_loss target : ℚ) (symbol : String) (position_size : ℚ)
    (position_type : Side)
    (h : (pf.open_position date entry_price stop_loss target symbol position_size
        position_type).2 = true) :
    (pf.open_position date entry_price stop_loss target symbol position_size
        position_type).1.current_position = some
      { entry_date := date
        entry_price := entry_price * (1 + pf.slippage)
        quantity := min ⌊pf.cash * position_size /
            riskPerShare entry_price stop_loss position_type⌋
          ⌊pf.cash * 0.98 / (entry_price * (1 + pf.slippage))⌋
        stop_loss := stop_loss
        target := target
        symbol := symbol
        position_type := position_type } ∧
    (pf.open_position date entry_price stop_loss target symbol position_size
        position_type).1.cash =
      pf.cash - ((min ⌊pf.cash * position_size /
            riskPerShare entry_price stop_loss position_type⌋
          ⌊pf.cash * 0.98 / (entry_price * (1 + pf.slippage))⌋ : ℤ) : ℚ) *
        (entry_price * (1 + pf.slippage)) * (1 + pf.commission) := by
  cases hcp : pf.current_position with
  | some p =>
    unfold Portfolio.open_position at h
    rw [hcp] at h
    simp at h
  | none =>
    rw [open_position_eq pf date entry_price stop_loss target symbol position_size
      position_type hcp] at h ⊢
    split_ifs at h ⊢ with h1 h2 h3
    have hqpos : 0 < sizedQuantity pf entry_price stop_loss position_size position_type :=
      lt_of_not_le h2
    have hfloor : sizedQuantity pf entry_price stop_loss position_size position_type =
        min ⌊pf.cash * position_size / riskPerShare entry_price stop_loss position_type⌋
          ⌊pf.cash * 0.98 / (entry_price * (1 + pf.slippage))⌋ := by
      unfold sizedQuantity at hqpos ⊢
      have ha : 0 < pyInt (pf.cash * position_size /
          riskPerShare entry_price stop_loss position_type) :=
        lt_of_lt_of_le hqpos (min_le_left _ _)
      have hb : 0 < pyInt (pf.cash * 0.98 / (entry_price * (1 + pf.slippage))) :=
        lt_of_lt_of_le hqpos (min_le_right _ _)
      rw [pyInt_nonneg_eq_floor (pyInt_pos_arg_nonneg ha),
        pyInt_nonneg_eq_floor (pyInt_pos_arg_nonneg hb)]
    rw [← hfloor]
    exact ⟨rfl, rfl⟩

/-- Concrete instance of C4: a successful open on a fresh default portfolio
(entry 101, stop 90, LONG) stores quantity `min 4545 4851 = 4545`, entry
price `101 × 1.0001`, and debits cash accordingly. -/
theorem C4_open_position_sizing_witness :
    ((Portfolio.init 500000 0.0003 0.0001).open_position 0 101 90 117.5 "X" 0.1
        Side.LONG).1.current_position = some
      { entry_date := 0
        entry_price := 101 * (1 + (Portfolio.init 500000 0.0003 0.0001).slippage)
        quantity := min ⌊(Portfolio.init 500000 0.0003 0.0001).cash * 0.1 /
            riskPerShare 101 90 Side.LONG⌋
          ⌊(Portfolio.init 500000 0.0003 0.0001).cash * 0.98 /
            (101 * (1 + (Portfolio.init 500000 0.0003 0.0001).slippage))⌋
        stop_loss := 90
        target := 117.5
        symbol := "X"
        position_type := Side.LONG } ∧
    ((Portfolio.init 500000 0.0003 0.0001).open_position 0 101 90 117.5 "X" 0.1
        Side.LONG).1.cash =
      (Portfolio.init 500000 0.0003 0.0001).cash -
        ((min ⌊(Portfolio.init 500000 0.0003 0.0001).cash * 0.1 /
            riskPerShare 101 90 Side.LONG⌋
          ⌊(Portfolio.init 500000 0.0003 0.0001).cash * 0.98 /
            (101 * (1 + (Portfolio.init 500000 0.0003 0.0001).slippage))⌋ : ℤ) : ℚ) *
        (101 * (1 + (Portfolio.init 500000 0.0003 0.0001).slippage)) *
        (1 + (Portfolio.init 500000 0.0003 0.0001).commission) :=
  C4_open_position_sizing (Portfolio.init 500000 0.0003 0.0001) 0 101 90 117.5 "X"
    0.1 Side.LONG (by with_unfolding_all rfl)

/-- `open_position` at the state level: either it succeeds from a flat
portfolio and leaves a position open, or it fails and changes nothing. -/
theorem open_position_state (pf : Portfolio) (d : Int) (e s t : ℚ) (sym : String)
    (sz : ℚ) (side : Side) :
    ((pf.open_position d e s t sym sz side).2 = true ∧
      pf.current_position = none ∧
      ((pf.open_position d e s t sym sz side).1.current_position).isSome = true) ∨
    ((pf.open_position d e s t sym sz side).2 = false ∧
      (pf.open_position d e s t sym sz side).1 = pf) := by
  cases hcp : pf.current_position with
  | some p =>
    right
    unfold Portfolio.open_position
    rw [hcp]
    exact ⟨rfl, rfl⟩
  | none =>
    rw [open_position_eq pf d e s t sym sz side hcp]
    split_ifs
    · right; exact ⟨rfl, rfl⟩
    · right; exact ⟨rfl, rfl⟩
    · right; exact ⟨rfl, rfl⟩
    · left; exact ⟨rfl, rfl, rfl⟩

/-- `close_position` at the state level: either it closes the open position,
or there was none and it changes nothing. -/
theorem close_position_state (pf : Portfolio) (d : Int) (p : ℚ) (reason : String) :
    ((pf.close_position d p reason).2 = true ∧ pf.current_position.isSome = true ∧
      (pf.close_position d p reason).1.current_position = none) ∨
    ((pf.close_position d p reason).2 = false ∧ (pf.close_position d p reason).1 = pf ∧
      pf.current_position = none) := by
  cases hcp : pf.current_position with
  | none =>
    right
    unfold Portfolio.close_position
    rw [hcp]
    exact ⟨rfl, rfl, rfl⟩
  | some pos =>
    left
    unfold Portfolio.close_position
    rw [hcp]
    exact ⟨rfl, rfl, rfl⟩

/-- Conservation law of the portfolio state machine: open flag plus
successful closes equals initial open flag plus successful opens. -/
theorem runCmds_counts : ∀ (cmds : List PortfolioCmd) (pf : Portfolio),
    openFlag (runCmds pf cmds).1 + (runCmds pf cmds).2.2 =
      openFlag pf + (runCmds pf cmds).2.1 := by
  intro cmds
  induction cmds with
  | nil => intro pf; simp [runCmds]
  | cons c rest ih =>
    intro pf
    cases c with
    | openCmd d e s t sym sz side =>
      have hstep := open_position_state pf d e s t sym sz side
      have ihr := ih (pf.open_position d e s t sym sz side).1
      rcases hstep with ⟨hs, hnone, hsome⟩ | ⟨hf, heq⟩
      · simp only [runCmds, hs, if_true]
        have h1 : openFlag pf = 0 := by simp [openFlag, hnone]
        have h2 : openFlag (pf.open_position d e s t sym sz side).1 = 1 := by
          simp [openFlag, hsome]
        omega
      · simp only [runCmds, hf, if_false, Bool.false_eq_true]
        rw [heq] at ihr ⊢
        omega
    | closeCmd d p reason =>
      have hstep := close_position_state pf d p reason
      have ihr := ih (pf.close_position d p reason).1
      rcases hstep with ⟨hs, hsome, hnone⟩ | ⟨hf, heq, hcpnone⟩
      · simp only [runCmds, hs, if_true]
        have h1 : openFlag pf = 1 := by simp [openFlag, hsome]
        have h2 : openFlag (pf.close_position d p reason).1 = 0 := by
          simp [openFlag, hnone]
        omega
      · simp only [runCmds, hf, if_false, Bool.false_eq_true]
        rw [heq] at ihr ⊢
        omega

/-- C6: starting from a fresh portfolio, after any sequence of
`open_position` / `close_position` calls at most one position is ever open:
the current position is non-null exactly when the successful opens exceed the
successful closes by one, the two counts never differ by more than one (so
successful opens and closes strictly alternate), an open attempt while a
position is open is rejected without effect, and a close attempt while flat
is rejected without effect. -/
theorem C6_single_position_invariant (cap comm slip : ℚ) (cmds : List PortfolioCmd) :
    (((runCmds (Portfolio.init cap comm slip) cmds).1.current_position.isSome = true) ↔
      (runCmds (Portfolio.init cap comm slip) cmds).2.1 =
        (runCmds (Portfolio.init cap comm slip) cmds).2.2 + 1) ∧
    ((runCmds (Portfolio.init cap comm slip) cmds).2.1 =
        (runCmds (Portfolio.init cap comm slip) cmds).2.2 ∨
      (runCmds (Portfolio.init cap comm slip) cmds).2.1 =
        (runCmds (Portfolio.init cap comm slip) cmds).2.2 + 1) ∧
    (∀ (pf : Portfolio) (d : Int) (e s t : ℚ) (sym : String) (sz : ℚ) (side : Side),
      pf.current_position.isSome = true →
      pf.open_position d e s t sym sz side = (pf, false)) ∧
    (∀ (pf : Portfolio) (d : Int) (p : ℚ) (reason : String),
      pf.current_position = none →
      pf.close_position d p reason = (pf, false)) := by
  have hc := runCmds_counts cmds (Portfolio.init cap comm slip)
  have h0 : openFlag (Portfolio.init cap comm slip) = 0 := by
    simp [openFlag, Portfolio.init]
  have hflag : openFlag (runCmds (Portfolio.init cap comm slip) cmds).1 = 0 ∨
      openFlag (runCmds (Portfolio.init cap comm slip) cmds).1 = 1 := by
    unfold openFlag
    split <;> simp
  refine ⟨⟨?_, ?_⟩, ?_, ?_, ?_⟩
  · intro hsome
    have h1 : openFlag (runCmds (Portfolio.init cap comm slip) cmds).1 = 1 := by
      simp [openFlag, hsome]
    omega
  · intro heq
    cases hv : (runCmds (Portfolio.init cap comm slip) cmds).1.current_position.isSome with
    | true => rfl
    | false =>
      have h1 : openFlag (runCmds (Portfolio.init cap comm slip) cmds).1 = 0 := by
        simp [openFlag, hv]
      omega
  · omega
  · intro pf d e s t sym sz side hsome
    obtain ⟨p, hp⟩ := Option.isSome_iff_exists.mp hsome
    unfold Portfolio.open_position
    rw [hp]
  · intro pf d p reason hnone
    unfold Portfolio.close_position
    rw [hnone]

/-- Concrete instance of C6: a close attempt on a fresh (flat) portfolio is
rejected without effect. -/
theorem C6_single_position_invariant_witness :
    (Portfolio.init 1000 0 0).close_position 0 5 "Stop Loss"
      = (Portfolio.init 1000 0 0, false) :=
  (C6_single_position_invariant 1000 0 0 []).2.2.2 (Portfolio.init 1000 0 0) 0 5
    "Stop Loss" rfl

theorem open_position_positions (pf : Portfolio) (d : Int) (e s t : ℚ) (sym : String)
    (sz : ℚ) (side : Side) :
    (pf.open_position d e s t sym sz side).1.positions = pf.positions := by
  cases hcp : pf.current_position with
  | some p =>
    unfold Portfolio.open_position
    rw [hcp]
  | none =>
    rw [open_position_eq pf d e s t sym sz side hcp]
    split_ifs <;> rfl

theorem update_equity_positions (pf : Portfolio) (d : Int) (cp : ℚ) :
    (pf.update_equity d cp).positions = pf.positions := rfl

theorem update_equity_current (pf : Portfolio) (d : Int) (cp : ℚ) :
    (pf.update_equity d cp).current_position = pf.current_position := rfl

theorem engineEntryPhase_positions (symbol : String) (pf : Portfolio) (row : SigRow) :
    (engineEntryPhase symbol pf row).positions = pf.positions := by
  by_cases h1 : row.signal ≠ 0 ∧ pf.current_position = none
  · simp only [engineEntryPhase, if_pos h1]
    repeat' split
    all_goals exact open_position_positions pf row.bar.date _ _ _ symbol _ _
  · simp only [engineEntryPhase, if_neg h1]

theorem engineEntryPhase_of_some (symbol : String) (pf : Portfolio) (row : SigRow)
    (p : Position) (hcp : pf.current_position = some p) :
    engineEntryPhase symbol pf row = pf := by
  unfold engineEntryPhase
  rw [if_neg]
  rintro ⟨-, hnone⟩
  rw [hcp] at hnone
  exact Option.noConfusion hnone

theorem engineStep_positions (symbol : String) (pf : Portfolio) (row : SigRow) :
    (engineStep symbol pf row).positions = (engineExitPhase pf row).positions := by
  unfold engineStep
  rw [update_equity_positions, engineEntryPhase_positions]

theorem close_position_of_some (pf : Portfolio) (d : Int) (p : ℚ) (reason : String)
    (pos : Position) (hcp : pf.current_position = some pos) :
    pf.close_position d p reason =
      ({ pf with
          cash := pf.cash + ((pos.quantity : ℚ) * (p * (1 - pf.slippage)) -
            (pos.quantity : ℚ) * (p * (1 - pf.slippage)) * pf.commission)
          positions := pf.positions ++ [pos.close d (p * (1 - pf.slippage)) reason]
          current_position := none }, true) := by
  unfold Portfolio.close_position
  rw [hcp]

/-- C1: for every bar processed while a position is open, no exit happens on
the bar whose timestamp equals the position's entry timestamp, even if stop
or target levels are touched; on any other bar at most one exit occurs, with
stop-loss checked before target: a LONG closes at the stop-loss price when
`low ≤ stop_loss`, otherwise at the target price when `high ≥ target`; a
SHORT closes at the stop-loss when `high ≥ stop_loss`, otherwise at the
target when `low ≤ target`; and when neither level is hit nothing is closed
and the position stays open. -/
theorem C1_engine_exit_rule (symbol : String) (pf : Portfolio) (row : SigRow)
    (pos : Position) (hcp : pf.current_position = some pos) :
    (pos.entry_date = row.bar.date →
      (engineStep symbol pf row).positions = pf.positions ∧
      (engineStep symbol pf row).current_position = some pos) ∧
    (pos.entry_date ≠ row.bar.date →
      (pos.position_type = Side.LONG →
        (row.bar.Low ≤ pos.stop_loss →
          (engineStep symbol pf row).positions = pf.positions ++
            [pos.close row.bar.date (pos.stop_loss * (1 - pf.slippage)) "Stop Loss"]) ∧
        (¬row.bar.Low ≤ pos.stop_loss → row.bar.High ≥ pos.target →
          (engineStep symbol pf row).positions = pf.positions ++
            [pos.close row.bar.date (pos.target * (1 - pf.slippage)) "Target"]) ∧
        (¬row.bar.Low ≤ pos.stop_loss → ¬row.bar.High ≥ pos.target →
          (engineStep symbol pf row).positions = pf.positions ∧
          (engineStep symbol pf row).current_position = some pos)) ∧
      (pos.position_type = Side.SHORT →
        (row.bar.High ≥ pos.stop_loss →
          (engineStep symbol pf row).positions = pf.positions ++
            [pos.close row.bar.date (pos.stop_loss * (1 - pf.slippage)) "Stop Loss"]) ∧
        (¬row.bar.High ≥ pos.stop_loss → row.bar.Low ≤ pos.target →
          (engineStep symbol pf row).positions = pf.positions ++
            [pos.close row.bar.date (pos.target * (1 - pf.slippage)) "Target"]) ∧
        (¬row.bar.High ≥ pos.stop_loss → ¬row.bar.Low ≤ pos.target →
          (engineStep symbol pf row).positions = pf.positions ∧
          (engineStep symbol pf row).current_position = some pos))) := by
  have hposeq := engineStep_positions symbol pf row
  constructor
  · intro hdate
    have hexit : engineExitPhase pf row = pf := by
      simp only [engineExitPhase, hcp, if_neg (not_not_intro hdate)]
    constructor
    · rw [hposeq, hexit]
    · unfold engineStep
      rw [update_equity_current, hexit, engineEntryPhase_of_some symbol pf row pos hcp,
        hcp]
  · intro hdate
    constructor
    · intro hLONG
      refine ⟨?_, ?_, ?_⟩
      · intro hstop
        have hexit : engineExitPhase pf row =
            (pf.close_position row.bar.date pos.stop_loss "Stop Loss").1 := by
          simp only [engineExitPhase, hcp, if_pos hdate, hLONG]
          rw [if_pos hstop]
        rw [hposeq, hexit, close_position_of_some pf row.bar.date pos.stop_loss
          "Stop Loss" pos hcp]
      · intro hstop htgt
        have hexit : engineExitPhase pf row =
            (pf.close_position row.bar.date pos.target "Target").1 := by
          simp only [engineExitPhase, hcp, if_pos hdate, hLONG]
          rw [if_neg hstop, if_pos htgt]
        rw [hposeq, hexit, close_position_of_some pf row.bar.date pos.target
          "Target" pos hcp]
      · intro hstop htgt
        have hexit : engineExitPhase pf row = pf := by
          simp only [engineExitPhase, hcp, if_pos hdate, hLONG]
          rw [if_neg hstop, if_neg htgt]
        constructor
        · rw [hposeq, hexit]
        · unfold engineStep
          rw [update_equity_current, hexit,
            engineEntryPhase_of_some symbol pf row pos hcp, hcp]
    · intro hSHORT
      refine ⟨?_, ?_, ?_⟩
      · intro hstop
        have hexit : engineExitPhase pf row =
            (pf.close_position row.bar.date pos.stop_loss "Stop Loss").1 := by
          simp only [engineExitPhase, hcp, if_pos hdate, hSHORT]
          rw [if_pos hstop]
        rw [hposeq, hexit, close_position_of_some pf row.bar.date pos.stop_loss
          "Stop Loss" pos hcp]
      · intro hstop htgt
        have hexit : engineExitPhase pf row =
            (pf.close_position row.bar.date pos.target "Target").1 := by
          simp only [engineExitPhase, hcp, if_pos hdate, hSHORT]
          rw [if_neg hstop, if_pos htgt]
        rw [hposeq, hexit, close_position_of_some pf row.bar.date pos.target
          "Target" pos hcp]
      · intro hstop htgt
        have hexit : engineExitPhase pf row = pf := by
          simp only [engineExitPhase, hcp, if_pos hdate, hSHORT]
          rw [if_neg hstop, if_neg htgt]
        constructor
        · rw [hposeq, hexit]
        · unfold engineStep
          rw [update_equity_current, hexit,
            engineEntryPhase_of_some symbol pf row pos hcp, hcp]

/-- Concrete instance of C1: a LONG position entered at timestamp 0 is closed
at its stop-loss on a later bar whose low touches the stop. -/
theorem C1_engine_exit_rule_witness :
    (engineStep "X"
      { initial_capital := 1000, cash := 500, commission := 0, slippage := 0,
        positions := [], current_position := some
          { entry_date := 0, entry_price := 10, quantity := 50, stop_loss := 9,
            target := 12, symbol := "X", position_type := Side.LONG },
        equity_curve := [] }
      { bar := ⟨1, 10, 11, 8, 10, 0⟩, signal := 0, entry_price := none,
        stop_loss := none, target := none, pattern_date := none }).positions =
    ([] : List Position) ++ [Position.close
      { entry_date := 0, entry_price := 10, quantity := 50, stop_loss := 9,
        target := 12, symbol := "X", position_type := Side.LONG } 1 (9 * (1 - 0))
      "Stop Loss"] :=
  (((C1_engine_exit_rule "X"
      { initial_capital := 1000, cash := 500, commission := 0, slippage := 0,
        positions := [], current_position := some
          { entry_date := 0, entry_price := 10, quantity := 50, stop_loss := 9,
            target := 12, symbol := "X", position_type := Side.LONG },
        equity_curve := [] }
      { bar := ⟨1, 10, 11, 8, 10, 0⟩, signal := 0, entry_price := none,
        stop_loss := none, target := none, pattern_date := none }
      { entry_date := 0, entry_price := 10, quantity := 50, stop_loss := 9,
        target := 12, symbol := "X", position_type := Side.LONG }
      rfl).2 (by decide)).1 rfl).1 (by norm_num)

theorem getElem?_eq_some_barAt (df : List Bar) {k : Nat} (h : k < df.length) :
    df[k]? = some (barAt df k) := by
  rw [List.getElem?_eq_getElem h]
  exact congrArg some (getD_eq_getElem df default h).symm

theorem detect_downtrend_strict_iff (df : List Bar) (index n : Nat)
    (h1 : n + 1 ≤ index) (h2 : index ≤ df.length) :
    CandlestickPatterns.detect_downtrend df index n true = true ↔
      ∀ j < n, (barAt df (index - j - 1)).High < (barAt df (index - j - 2)).High := by
  unfold CandlestickPatterns.detect_downtrend
  rw [if_neg (by omega), if_pos rfl, List.all_eq_true]
  constructor
  · intro hall j hj
    have h := hall j (List.mem_range.mpr hj)
    have hk1 : index - (j + 1) < df.length := by omega
    have hk2 : index - (j + 1) - 1 < df.length := by omega
    simp only [getElem?_eq_some_barAt df hk1, getElem?_eq_some_barAt df hk2,
      Bool.and_eq_true, decide_eq_true_eq] at h
    rw [show index - j - 1 = index - (j + 1) by omega,
      show index - j - 2 = index - (j + 1) - 1 by omega]
    exact h.2
  · intro hlt j hmem
    have hj := List.mem_range.mp hmem
    have hk1 : index - (j + 1) < df.length := by omega
    have hk2 : index - (j + 1) - 1 < df.length := by omega
    simp only [getElem?_eq_some_barAt df hk1, getElem?_eq_some_barAt df hk2,
      Bool.and_eq_true, decide_eq_true_eq]
    refine ⟨by omega, ?_⟩
    have h := hlt j hj
    rw [show index - j - 1 = index - (j + 1) by omega,
      show index - j - 2 = index - (j + 1) - 1 by omega] at h
    exact h

theorem detect_uptrend_strict_iff (df : List Bar) (index n : Nat)
    (h1 : n + 1 ≤ index) (h2 : index ≤ df.length) :
    CandlestickPatterns.detect_uptrend df index n true = true ↔
      ∀ j < n, (barAt df (index - j - 2)).Low < (barAt df (index - j - 1)).Low := by
  unfold CandlestickPatterns.detect_uptrend
  rw [if_neg (by omega), if_pos rfl, List.all_eq_true]
  constructor
  · intro hall j hj
    have h := hall j (List.mem_range.mpr hj)
    have hk1 : index - (j + 1) < df.length := by omega
    have hk2 : index - (j + 1) - 1 < df.length := by omega
    simp only [getElem?_eq_some_barAt df hk1, getElem?_eq_some_barAt df hk2,
      Bool.and_eq_true, decide_eq_true_eq] at h
    rw [show index - j - 1 = index - (j + 1) by omega,
      show index - j - 2 = index - (j + 1) - 1 by omega]
    exact h.2
  · intro hlt j hmem
    have hj := List.mem_range.mp hmem
    have hk1 : index - (j + 1) < df.length := by omega
    have hk2 : index - (j + 1) - 1 < df.length := by omega
    simp only [getElem?_eq_some_barAt df hk1, getElem?_eq_some_barAt df hk2,
      Bool.and_eq_true, decide_eq_true_eq]
    refine ⟨by omega, ?_⟩
    have h := hlt j hj
    rw [show index - j - 1 = index - (j + 1) by omega,
      show index - j - 2 = index - (j + 1) - 1 by omega] at h
    exact h

theorem detect_downtrend_relaxed_iff (df : List Bar) (index n : Nat)
    (h1 : n ≤ index) (h2 : index ≤ df.length) :
    CandlestickPatterns.detect_downtrend df index n false = true ↔
      (n : ℚ) * 0.7 ≤ (bearishCount df index n : ℚ) := by
  unfold CandlestickPatterns.detect_downtrend
  rw [if_neg (by omega), if_neg (by simp), decide_eq_true_eq]
  have hcount : ((List.range n).filter fun j =>
      match df[index - (j + 1)]? with
      | some bar => decide (bar.Close < bar.Open)
      | none => false).length = bearishCount df index n := by
    unfold bearishCount
    congr 1
    apply List.filter_congr
    intro j hmem
    have hj := List.mem_range.mp hmem
    have hk : index - (j + 1) < df.length := by omega
    have hidx : index - (j + 1) = index - j - 1 := by omega
    rw [getElem?_eq_some_barAt df hk, hidx]
  rw [hcount, ge_iff_le]

theorem detect_uptrend_relaxed_iff (df : List Bar) (index n : Nat)
    (h1 : n ≤ index) (h2 : index ≤ df.length) :
    CandlestickPatterns.detect_uptrend df index n false = true ↔
      (n : ℚ) * 0.7 ≤ (bullishCount df index n : ℚ) := by
  unfold CandlestickPatterns.detect_uptrend
  rw [if_neg (by omega), if_neg (by simp), decide_eq_true_eq]
  have hcount : ((List.range n).filter fun j =>
      match df[index - (j + 1)]? with
      | some bar => decide (bar.Open < bar.Close)
      | none => false).length = bullishCount df index n := by
    unfold bullishCount
    congr 1
    apply List.filter_congr
    intro j hmem
    have hj := List.mem_range.mp hmem
    have hk : index - (j + 1) < df.length := by omega
    have hidx : index - (j + 1) = index - j - 1 := by omega
    rw [getElem?_eq_some_barAt df hk, hidx]
  rw [hcount, ge_iff_le]

theorem detect_strict_false_of_window_past_start (df : List Bar) (index n : Nat)
    (hn : 1 ≤ n) (hidx : index ≤ n) :
    CandlestickPatterns.detect_downtrend df index n true = false ∧
    CandlestickPatterns.detect_uptrend df index n true = false := by
  constructor
  · apply Bool.eq_false_iff.mpr
    intro hall
    unfold CandlestickPatterns.detect_downtrend at hall
    split_ifs at hall with hlt hstrict
    · rw [List.all_eq_true] at hall
      have h := hall (n - 1) (List.mem_range.mpr (by omega))
      simp only [Bool.and_eq_true, decide_eq_true_eq] at h
      omega
    · exact hstrict rfl
  · apply Bool.eq_false_iff.mpr
    intro hall
    unfold CandlestickPatterns.detect_uptrend at hall
    split_ifs at hall with hlt hstrict
    · rw [List.all_eq_true] at hall
      have h := hall (n - 1) (List.mem_range.mpr (by omega))
      simp only [Bool.and_eq_true, decide_eq_true_eq] at h
      omega
    · exact hstrict rfl

/-- C7: strict trend detection returns false whenever `index < windowSize` or
the pairwise window runs past the start of the series; otherwise (window
fully inside the series) strict DOWN holds iff each of the `windowSize` bars
before `index` has a high strictly below the high of the bar one position
further back, and strict UP is the mirror condition on lows; relaxed mode
instead holds iff the count of direction-matching bars (bearish for DOWN,
bullish for UP) among the `windowSize` preceding bars is at least
`0.7 × windowSize`. -/
theorem C7_detect_trend_characterization (df : List Bar) (index n : Nat)
    (hlen : index ≤ df.length) :
    (1 ≤ n → index ≤ n →
      CandlestickPatterns.detect_downtrend df index n true = false ∧
      CandlestickPatterns.detect_uptrend df index n true = false) ∧
    (n + 1 ≤ index →
      (CandlestickPatterns.detect_downtrend df index n true = true ↔
        ∀ j < n, (barAt df (index - j - 1)).High < (barAt df (index - j - 2)).High) ∧
      (CandlestickPatterns.detect_uptrend df index n true = true ↔
        ∀ j < n, (barAt df (index - j - 2)).Low < (barAt df (index - j - 1)).Low)) ∧
    (n ≤ index →
      (CandlestickPatterns.detect_downtrend df index n false = true ↔
        (n : ℚ) * 0.7 ≤ (bearishCount df index n : ℚ)) ∧
      (CandlestickPatterns.detect_uptrend df index n false = true ↔
        (n : ℚ) * 0.7 ≤ (bullishCount df index n : ℚ))) :=
  ⟨fun hn hidx => detect_strict_false_of_window_past_start df index n hn hidx,
   fun h1 => ⟨detect_downtrend_strict_iff df index n h1 hlen,
     detect_uptrend_strict_iff df index n h1 hlen⟩,
   fun h1 => ⟨detect_downtrend_relaxed_iff df index n h1 hlen,
     detect_uptrend_relaxed_iff df index n h1 hlen⟩⟩

/-- Concrete instance of C7: on a three-bar series with falling highs and a
bearish middle bar, strict and relaxed downtrend detection at index 2 with
window 1 both succeed. -/
theorem C7_detect_trend_characterization_witness :
    CandlestickPatterns.detect_downtrend
      [⟨0, 10, 10, 0, 5, 0⟩, ⟨1, 9, 9, 0, 5, 0⟩, ⟨2, 8, 8, 0, 5, 0⟩] 2 1 true = true ∧
    CandlestickPatterns.detect_downtrend
      [⟨0, 10, 10, 0, 5, 0⟩, ⟨1, 9, 9, 0, 5, 0⟩, ⟨2, 8, 8, 0, 5, 0⟩] 2 1 false = true := by
  constructor
  · exact ((C7_detect_trend_characterization
      [⟨0, 10, 10, 0, 5, 0⟩, ⟨1, 9, 9, 0, 5, 0⟩, ⟨2, 8, 8, 0, 5, 0⟩] 2 1
      (by norm_num)).2.1 (by norm_num)).1.mpr
      (by
        intro j hj
        have hj0 : j = 0 := by omega
        subst hj0
        with_unfolding_all rfl)
  · exact ((C7_detect_trend_characterization
      [⟨0, 10, 10, 0, 5, 0⟩, ⟨1, 9, 9, 0, 5, 0⟩, ⟨2, 8, 8, 0, 5, 0⟩] 2 1
      (by norm_num)).2.2 (by norm_num)).1.mpr (by with_unfolding_all rfl)

theorem listModify_map_bar_h (l : List HRow) (i : Nat) (f : HRow → HRow)
    (hf : ∀ x, (f x).bar = x.bar) :
    (listModify l i f).map (fun r => r.bar) = l.map (fun r => r.bar) :=
  listModify_map (fun r => r.bar) l i f hf

theorem listModify_map_bar_s (l : List SRow) (i : Nat) (f : SRow → SRow)
    (hf : ∀ x, (f x).bar = x.bar) :
    (listModify l i f).map (fun r => r.bar) = l.map (fun r => r.bar) :=
  listModify_map (fun r => r.bar) l i f hf

set_option maxHeartbeats 1000000 in
theorem hammer_step_map_bar (df : List Bar) (n : Nat) (rr : ℚ) (rows : List HRow)
    (i : Nat) :
    (HammerStrategy.stepSignals df n rr rows i).map (fun r => r.bar)
      = rows.map (fun r => r.bar) := by
  simp only [HammerStrategy.stepSignals]
  split_ifs <;>
    first
      | exact (listModify_map_bar_h _ _ _ (by intro x; rfl)).trans
          ((listModify_map_bar_h _ _ _ (by intro x; rfl)).trans
            (listModify_map_bar_h _ _ _ (by intro x; rfl)))
      | exact (listModify_map_bar_h _ _ _ (by intro x; rfl)).trans
          (listModify_map_bar_h _ _ _ (by intro x; rfl))
      | exact listModify_map_bar_h _ _ _ (by intro x; rfl)

set_option maxHeartbeats 1000000 in
theorem star_step_map_bar (df : List Bar) (n : Nat) (rr : ℚ) (rows : List SRow)
    (i : Nat) :
    (ShootingStarStrategy.stepSignals df n rr rows i).map (fun r => r.bar)
      = rows.map (fun r => r.bar) := by
  simp only [ShootingStarStrategy.stepSignals]
  split_ifs <;>
    first
      | exact (listModify_map_bar_s _ _ _ (by intro x; rfl)).trans
          ((listModify_map_bar_s _ _ _ (by intro x; rfl)).trans
            (listModify_map_bar_s _ _ _ (by intro x; rfl)))
      | exact (listModify_map_bar_s _ _ _ (by intro x; rfl)).trans
          (listModify_map_bar_s _ _ _ (by intro x; rfl))
      | exact listModify_map_bar_s _ _ _ (by intro x; rfl)

theorem hammer_generate_map_bar (n : Nat) (rr : ℚ) (df : List Bar) :
    (HammerStrategy.generate_signals n rr df).map (fun r => r.bar) = df := by
  unfold HammerStrategy.generate_signals
  have hfold : ∀ (L : List Nat) (rows : List HRow),
      (L.foldl (HammerStrategy.stepSignals df n rr) rows).map (fun r => r.bar)
        = rows.map (fun r => r.bar) := by
    intro L
    induction L with
    | nil => intro rows; rfl
    | cons a t ih =>
      intro rows
      rw [List.foldl_cons, ih, hammer_step_map_bar]
  rw [hfold, List.map_map]
  exact List.map_id df

theorem star_generate_map_bar (n : Nat) (rr : ℚ) (df : List Bar) :
    (ShootingStarStrategy.generate_signals n rr df).map (fun r => r.bar) = df := by
  unfold ShootingStarStrategy.generate_signals
  have hfold : ∀ (L : List Nat) (rows : List SRow),
      (L.foldl (ShootingStarStrategy.stepSignals df n rr) rows).map (fun r => r.bar)
        = rows.map (fun r => r.bar) := by
    intro L
    induction L with
    | nil => intro rows; rfl
    | cons a t ih =>
      intro rows
      rw [List.foldl_cons, ih, star_step_map_bar]
  rw [hfold, List.map_map]
  exact List.map_id df

theorem processDay_map_bar (fhH fhL rr : ℚ) (ss : Int) :
    ∀ (st : NYState) (post : List Bar),
      (NYSessionStrategy.processDay fhH fhL rr ss st post).map (fun r => r.bar) = post
  | _, [] => rfl
  | st, c :: rest => by
    unfold NYSessionStrategy.processDay
    rw [List.map_cons, processDay_map_bar fhH fhL rr ss _ rest]
    rfl

theorem ny_generate_map_bar (rr : ℚ) (ss : Int) (session post : List Bar) :
    (NYSessionStrategy.generate_signals rr ss session post).map (fun r => r.bar)
      = post := by
  unfold NYSessionStrategy.generate_signals
  split_ifs
  · rw [List.map_map]
    exact List.map_id post
  · exact processDay_map_bar _ _ _ _ _ _

/-- C10 (implicit frame property): each strategy's `generate_signals` is a
pure function of its input series — in this embedding the caller's list is a
value that cannot be written to, mirroring the `df.copy()` the code performs
before adding columns — and the annotated series it returns carries exactly
the input's OHLCV bars at every index (only annotation columns are added; no
OHLCV value is altered). -/
theorem C10_generate_signals_preserves_bars :
    (∀ (n : Nat) (rr : ℚ) (df : List Bar),
      (HammerStrategy.generate_signals n rr df).map (fun r => r.bar) = df) ∧
    (∀ (n : Nat) (rr : ℚ) (df : List Bar),
      (ShootingStarStrategy.generate_signals n rr df).map (fun r => r.bar) = df) ∧
    (∀ (rr : ℚ) (ss : Int) (session post : List Bar),
      (NYSessionStrategy.generate_signals rr ss session post).map (fun r => r.bar)
        = post) :=
  ⟨hammer_generate_map_bar, star_generate_map_bar, ny_generate_map_bar⟩

theorem backInsideRange_of_allWithin {lo hi : ℚ} {c : Bar} (h : allWithin lo hi c) :
    NYSessionStrategy.backInsideRange hi lo c = true := by
  obtain ⟨⟨h1, h2⟩, ⟨h3, h4⟩, ⟨h5, h6⟩, ⟨h7, h8⟩⟩ := h
  unfold NYSessionStrategy.backInsideRange
  simp only [Bool.and_eq_true, decide_eq_true_eq]
  exact ⟨⟨⟨⟨⟨h4, h5⟩, h2⟩, h1⟩, h8⟩, h7⟩

theorem backInsideRange_false_of_not_allWithin {lo hi : ℚ} {c : Bar}
    (hsane : barSane c) (h : ¬allWithin lo hi c) :
    NYSessionStrategy.backInsideRange hi lo c = false := by
  apply Bool.eq_false_iff.mpr
  intro htrue
  apply h
  unfold NYSessionStrategy.backInsideRange at htrue
  simp only [Bool.and_eq_true, decide_eq_true_eq] at htrue
  obtain ⟨⟨⟨⟨⟨hH1, hL1⟩, hO1⟩, hO2⟩, hC1⟩, hC2⟩ := htrue
  obtain ⟨s1, s2, s3, s4⟩ := hsane
  exact ⟨⟨hO2, hO1⟩, ⟨le_trans hO2 s3, hH1⟩, ⟨hL1, le_trans s1 hO1⟩, ⟨hC2, hC1⟩⟩

theorem nyStep_breakoutUp (fhH fhL rr : ℚ) (ss : Int) (bh bl : ℚ) (c : Bar) :
    NYSessionStrategy.nyStep fhH fhL rr ss (NYState.BreakoutUp bh bl) c =
      if NYSessionStrategy.backInsideRange fhH fhL c then
        (if max bh c.High - c.High > 0 then
          (NYState.Flat, ⟨-1, some c.High, some (max bh c.High),
            some (c.High - (max bh c.High - c.High) * rr), some ss⟩)
        else (NYState.Flat, NYSessionStrategy.noSignal))
      else (NYState.BreakoutUp (max bh c.High) (min bl c.Low),
        NYSessionStrategy.noSignal) := rfl

theorem nyStep_breakoutDown (fhH fhL rr : ℚ) (ss : Int) (bl bh : ℚ) (c : Bar) :
    NYSessionStrategy.nyStep fhH fhL rr ss (NYState.BreakoutDown bl bh) c =
      if NYSessionStrategy.backInsideRange fhH fhL c then
        (if c.Low - min bl c.Low > 0 then
          (NYState.Flat, ⟨1, some c.Low, some (min bl c.Low),
            some (c.Low + (c.Low - min bl c.Low) * rr), some ss⟩)
        else (NYState.Flat, NYSessionStrategy.noSignal))
      else (NYState.BreakoutDown (min bl c.Low) (max bh c.High),
        NYSessionStrategy.noSignal) := rfl

set_option maxHeartbeats 2000000 in
/-- C5: while the session-breakout state machine is in `BreakoutUp`, a bar
fully contained in the session range emits — when the tracked breakout-high
minus the bar's high is strictly positive — a SHORT signal with entry at the
bar's high, stop at the tracked breakout-high (the maximum high since the
breakout bar, this bar included), target at entry − risk × R and the session
start as pattern timestamp; in every case, a zero-or-negative risk included,
the state returns to `Flat` with the tracked extremes cleared, and a sane bar
that is not fully contained keeps the machine in `BreakoutUp` with extended
extremes and emits nothing (symmetrically for `BreakoutDown` and LONG at the
bar's low); on the section-8 scenario (range [100, 110], breakout close 115,
re-entry high 108, R = 8) the re-entry bar gets SHORT entry 108, stop 115,
target 52. -/
theorem C5_session_reentry (four_hour_high four_hour_low rr : ℚ) (ss : Int)
    (bh bl : ℚ) (c : Bar) :
    (allWithin four_hour_low four_hour_high c →
      NYSessionStrategy.nyStep four_hour_high four_hour_low rr ss
          (NYState.BreakoutUp bh bl) c =
        (if 0 < max bh c.High - c.High then
          (NYState.Flat, ⟨-1, some c.High, some (max bh c.High),
            some (c.High - (max bh c.High - c.High) * rr), some ss⟩)
        else (NYState.Flat, NYSessionStrategy.noSignal))) ∧
    (barSane c → ¬allWithin four_hour_low four_hour_high c →
      NYSessionStrategy.nyStep four_hour_high four_hour_low rr ss
          (NYState.BreakoutUp bh bl) c =
        (NYState.BreakoutUp (max bh c.High) (min bl c.Low),
          NYSessionStrategy.noSignal)) ∧
    (allWithin four_hour_low four_hour_high c →
      NYSessionStrategy.nyStep four_hour_high four_hour_low rr ss
          (NYState.BreakoutDown bl bh) c =
        (if 0 < c.Low - min bl c.Low then
          (NYState.Flat, ⟨1, some c.Low, some (min bl c.Low),
            some (c.Low + (c.Low - min bl c.Low) * rr), some ss⟩)
        else (NYState.Flat, NYSessionStrategy.noSignal))) ∧
    (barSane c → ¬allWithin four_hour_low four_hour_high c →
      NYSessionStrategy.nyStep four_hour_high four_hour_low rr ss
          (NYState.BreakoutDown bl bh) c =
        (NYState.BreakoutDown (min bl c.Low) (max bh c.High),
          NYSessionStrategy.noSignal)) ∧
    NYSessionStrategy.generate_signals 8 5
        [⟨0, 105, 110, 100, 107, 0⟩]
        [⟨1, 108, 115, 107, 115, 0⟩, ⟨2, 105, 108, 102, 106, 0⟩] =
      [{ bar := ⟨1, 108, 115, 107, 115, 0⟩, signal := 0, entry_price := none,
          stop_loss := none, target := none, pattern_date := none,
          four_hour_high := some 110, four_hour_low := some 100 },
        { bar := ⟨2, 105, 108, 102, 106, 0⟩, signal := -1, entry_price := some 108,
          stop_loss := some 115, target := some 52, pattern_date := some 5,
          four_hour_high := some 110, four_hour_low := some 100 }] := by
  refine ⟨?_, ?_, ?_, ?_, ?_⟩
  · intro hin
    have hBIR := backInsideRange_of_allWithin hin
    rw [nyStep_breakoutUp, if_pos hBIR]
  · intro hsane hnin
    have hBIR := backInsideRange_false_of_not_allWithin hsane hnin
    rw [nyStep_breakoutUp, if_neg (by simp [hBIR])]
  · intro hin
    have hBIR := backInsideRange_of_allWithin hin
    rw [nyStep_breakoutDown, if_pos hBIR]
  · intro hsane hnin
    have hBIR := backInsideRange_false_of_not_allWithin hsane hnin
    rw [nyStep_breakoutDown, if_neg (by simp [hBIR])]
  · with_unfolding_all rfl

/-- Concrete instance of C5: in `BreakoutUp` with tracked high 115 over range
[100, 110], a fully-contained bar with high 108 yields SHORT entry 108, stop
115, target 52, and the state returns to `Flat`. -/
theorem C5_session_reentry_witness :
    NYSessionStrategy.nyStep 110 100 8 5 (NYState.BreakoutUp 115 107)
        ⟨2, 105, 108, 102, 106, 0⟩ =
      (NYState.Flat, ⟨-1, some 108, some 115, some 52, some 5⟩) :=
  ((C5_session_reentry 110 100 8 5 115 107 ⟨2, 105, 108, 102, 106, 0⟩).1
      (of_decide_eq_true (by with_unfolding_all rfl))).trans
    (by with_unfolding_all rfl)

theorem getD_of_le {α : Type} (l : List α) (d : α) {j : Nat} (h : l.length ≤ j) :
    l.getD j d = d := by
  simp [List.getD_eq_getElem?_getD, List.getElem?_eq_none h]

theorem listModify_getD_sig (l : List HRow) (i j : Nat) (f : HRow → HRow) (d : HRow)
    (hf : ∀ x, HammerStrategy.sigOf (f x) = HammerStrategy.sigOf x) :
    HammerStrategy.sigOf ((listModify l i f).getD j d) =
      HammerStrategy.sigOf (l.getD j d) := by
  by_cases hij : i = j
  · subst hij
    by_cases hlen : i < l.length
    · rw [listModify_getD_self l f d hlen, hf]
    · rw [getD_of_le _ d (by rw [listModify_length]; omega), getD_of_le _ d (by omega)]
  · rw [listModify_getD_ne l f d hij]

theorem hammer_step_length (df : List Bar) (n : Nat) (rr : ℚ) (rows : List HRow)
    (i : Nat) :
    (HammerStrategy.stepSignals df n rr rows i).length = rows.length := by
  simp only [HammerStrategy.stepSignals]
  split_ifs <;> simp only [listModify_length]

theorem hammer_step_sig (df : List Bar) (n : Nat) (rr : ℚ) (rows : List HRow)
    (i j : Nat) (d : HRow) :
    HammerStrategy.sigOf ((HammerStrategy.stepSignals df n rr rows i).getD j d) =
      if j = i + 1 ∧ j < rows.length ∧ HammerStrategy.breakoutTrigger df n i = true
      then HammerStrategy.emittedSignal df rr i
      else HammerStrategy.sigOf (rows.getD j d) := by
  simp only [HammerStrategy.stepSignals]
  by_cases hih : CandlestickPatterns.is_hammer (df.getD i default) 0.25 2.5 = true
  · rw [if_pos hih]
    by_cases hhd : HammerStrategy.hasTrend df i n = true
    · rw [if_pos hhd]
      by_cases hbrk : (df.getD (i + 1) default).High > (df.getD i default).High ∧
          (df.getD (i + 1) default).Open ≥ (df.getD i default).High
      · rw [if_pos hbrk]
        by_cases hrisk : (df.getD (i + 1) default).Open - (df.getD i default).Low > 0
        · rw [if_pos hrisk]
          have htrig : HammerStrategy.breakoutTrigger df n i = true := by
            simp only [HammerStrategy.breakoutTrigger, barAt, Bool.and_eq_true,
              decide_eq_true_eq]
            exact ⟨⟨⟨⟨hih, hhd⟩, hbrk.1⟩, hbrk.2⟩, hrisk⟩
          by_cases hj : j = i + 1
          · subst hj
            by_cases hlen : i + 1 < rows.length
            · rw [if_pos ⟨rfl, hlen, htrig⟩, listModify_getD_self _ _ d
                (by simp only [listModify_length]; exact hlen)]
              rfl
            · rw [if_neg (fun hc => hlen hc.2.1),
                getD_of_le _ d (by simp only [listModify_length]; omega),
                getD_of_le _ d (by omega)]
          · rw [if_neg (fun hc => hj hc.1), listModify_getD_ne _ _ d (by omega),
              listModify_getD_sig _ _ _ _ d (by intro x; rfl),
              listModify_getD_sig _ _ _ _ d (by intro x; rfl)]
        · rw [if_neg hrisk]
          have htrig : HammerStrategy.breakoutTrigger df n i = false := by
            apply Bool.eq_false_iff.mpr
            intro htr
            simp only [HammerStrategy.breakoutTrigger, barAt, Bool.and_eq_true,
              decide_eq_true_eq] at htr
            exact hrisk htr.2
          rw [if_neg (by rintro ⟨-, -, h3⟩; rw [htrig] at h3; exact Bool.noConfusion h3),
            listModify_getD_sig _ _ _ _ d (by intro x; rfl),
            listModify_getD_sig _ _ _ _ d (by intro x; rfl)]
      · rw [if_neg hbrk]
        have htrig : HammerStrategy.breakoutTrigger df n i = false := by
          apply Bool.eq_false_iff.mpr
          intro htr
          simp only [HammerStrategy.breakoutTrigger, barAt, Bool.and_eq_true,
            decide_eq_true_eq] at htr
          exact hbrk ⟨htr.1.1.2, htr.1.2⟩
        rw [if_neg (by rintro ⟨-, -, h3⟩; rw [htrig] at h3; exact Bool.noConfusion h3),
          listModify_getD_sig _ _ _ _ d (by intro x; rfl),
          listModify_getD_sig _ _ _ _ d (by intro x; rfl)]
    · rw [if_neg hhd]
      have htrig : HammerStrategy.breakoutTrigger df n i = false := by
        apply Bool.eq_false_iff.mpr
        intro htr
        simp only [HammerStrategy.breakoutTrigger, barAt, Bool.and_eq_true,
          decide_eq_true_eq] at htr
        rw [htr.1.1.1.2] at hhd
        exact hhd rfl
      rw [if_neg (by rintro ⟨-, -, h3⟩; rw [htrig] at h3; exact Bool.noConfusion h3),
        listModify_getD_sig _ _ _ _ d (by intro x; rfl)]
  · rw [if_neg hih]
    have htrig : HammerStrategy.breakoutTrigger df n i = false := by
      apply Bool.eq_false_iff.mpr
      intro htr
      simp only [HammerStrategy.breakoutTrigger, barAt, Bool.and_eq_true,
        decide_eq_true_eq] at htr
      rw [htr.1.1.1.1] at hih
      exact hih rfl
    rw [if_neg (by rintro ⟨-, -, h3⟩; rw [htrig] at h3; exact Bool.noConfusion h3),
      listModify_getD_sig _ _ _ _ d (by intro x; rfl)]

theorem hammer_fold_sig (df : List Bar) (n : Nat) (rr : ℚ) (d : HRow) :
    ∀ (L : List Nat) (rows : List HRow) (j : Nat),
      HammerStrategy.sigOf
          ((L.foldl (HammerStrategy.stepSignals df n rr) rows).getD j d) =
        if 1 ≤ j ∧ (j - 1) ∈ L ∧ j < rows.length ∧
            HammerStrategy.breakoutTrigger df n (j - 1) = true
        then HammerStrategy.emittedSignal df rr (j - 1)
        else HammerStrategy.sigOf (rows.getD j d) := by
  intro L
  induction L with
  | nil =>
    intro rows j
    rw [List.foldl_nil, if_neg (by rintro ⟨-, h2, -⟩; exact (List.not_mem_nil _) h2)]
  | cons a t ih =>
    intro rows j
    rw [List.foldl_cons, ih (HammerStrategy.stepSignals df n rr rows a) j,
      hammer_step_length]
    by_cases hmem : 1 ≤ j ∧ j - 1 ∈ t ∧ j < rows.length ∧
        HammerStrategy.breakoutTrigger df n (j - 1) = true
    · rw [if_pos hmem,
        if_pos ⟨hmem.1, List.mem_cons_of_mem a hmem.2.1, hmem.2.2⟩]
    · rw [if_neg hmem, hammer_step_sig]
      by_cases hja : j = a + 1 ∧ j < rows.length ∧
          HammerStrategy.breakoutTrigger df n a = true
      · obtain ⟨hja1, hja2, hja3⟩ := hja
        have hj1 : j - 1 = a := by omega
        rw [if_pos ⟨hja1, hja2, hja3⟩,
          if_pos ⟨by omega, by rw [hj1]; exact List.mem_cons_self a t, hja2,
            by rw [hj1]; exact hja3⟩, hj1]
      · rw [if_neg hja]
        rw [if_neg (by
          rintro ⟨h1, h2, h3, h4⟩
          rcases List.mem_cons.mp h2 with heq | hmem2
          · exact hja ⟨by omega, h3, by rw [← heq]; exact h4⟩
          · exact hmem ⟨h1, hmem2, h3, h4⟩)]

theorem hammer_sig_init (df : List Bar) (j : Nat) :
    HammerStrategy.sigOf ((df.map HammerStrategy.initRow).getD j
      (HammerStrategy.initRow default)) = HammerStrategy.noSigma := by
  by_cases h : j < df.length
  · rw [getD_map_of_lt HammerStrategy.initRow df
      (HammerStrategy.initRow default) default h]
    rfl
  · rw [getD_of_le _ _ (by simp only [List.length_map]; omega)]
    rfl

set_option maxHeartbeats 4000000 in
/-- C3: the hammer strategy writes its signal columns at exactly the indices
`j = i + 1` for which the pattern index `i` satisfies `N ≤ i ≤ len − 2` (the
last bar is never a pattern index), bar `i` is a hammer, the trend before `i`
is confirmed (strict first, relaxed as fallback), bar `i + 1` breaks out
(`high > bar[i].high` and `open ≥ bar[i].high`) and the risk
`bar[i+1].open − bar[i].low` is strictly positive; the written annotation is
LONG with entry `bar[i+1].open`, stop `bar[i].low`, target entry + risk × R
and pattern timestamp of bar `i`; every other index carries no signal (a
failed breakout writes nothing, and each index is written at most once).  On
the 10-bar section-8 scenario the breakout bar gets a LONG signal with entry
101, stop 90, target 117.5. -/
theorem C3_hammer_signal_contract :
    (∀ (df : List Bar) (n : Nat) (rr : ℚ) (j : Nat),
      HammerStrategy.sigOf ((HammerStrategy.generate_signals n rr df).getD j
          (HammerStrategy.initRow default)) =
        if 1 ≤ j ∧ n ≤ j - 1 ∧ j < df.length ∧
            HammerStrategy.breakoutTrigger df n (j - 1) = true
        then HammerStrategy.emittedSignal df rr (j - 1)
        else HammerStrategy.noSigma) ∧
    HammerStrategy.sigOf
        ((HammerStrategy.generate_signals 6 1.5 hammerScenario).getD 8
          (HammerStrategy.initRow default)) =
      (1, some 101, some 90, some 117.5, some 7) := by
  constructor
  · intro df n rr j
    unfold HammerStrategy.generate_signals
    rw [hammer_fold_sig df n rr (HammerStrategy.initRow default) _
      (df.map HammerStrategy.initRow) j, List.length_map]
    by_cases hc : 1 ≤ j ∧ n ≤ j - 1 ∧ j < df.length ∧
        HammerStrategy.breakoutTrigger df n (j - 1) = true
    · obtain ⟨h1, h2, h3, h4⟩ := hc
      rw [if_pos ⟨h1, List.mem_range'_1.mpr ⟨h2, by omega⟩, h3, h4⟩,
        if_pos ⟨h1, h2, h3, h4⟩]
    · rw [if_neg hc, if_neg (by
        rintro ⟨h1, h2, h3, h4⟩
        exact hc ⟨h1, (List.mem_range'_1.mp h2).1, h3, h4⟩)]
      exact hammer_sig_init df j
  · with_unfolding_all rfl
